import Mathlib

set_option maxRecDepth 1000000

namespace NetlistModel

/-! Definitions: shallow embedding of the netlist tool (tokenizer, reader,
atom classification, component/net graph model and the mcp1621 decoder). -/

/-- Double-quote character (code 34), kept out of string literals. -/
def dqCh : Char := Char.ofNat 34

/-- Single-quote character (code 39), the quote shorthand marker. -/
def sqCh : Char := Char.ofNat 39

/-- Backquote character (code 96), the quasiquote shorthand marker. -/
def bqCh : Char := Char.ofNat 96

/-- Backslash character (code 92). -/
def bslCh : Char := Char.ofNat 92

/-- One-character string holding the quote marker. -/
def sqS : String := String.mk [sqCh]

/-- One-character string holding the quasiquote marker. -/
def bqS : String := String.mk [bqCh]

/-- One-character string holding the double quote. -/
def dqS : String := String.mk [dqCh]

/-- Association-list lookup, modelling Python dict indexing (first binding wins;
real Python dicts never hold a duplicate key). -/
def alookup {α : Type} : List (String × α) → String → Option α
  | [], _ => none
  | (k, v) :: rest, key => if k = key then some v else alookup rest key

/-- Association-list update-or-append, modelling Python dict assignment
d[k] = v: an existing binding is overwritten in place, a fresh key is
appended at the end (Python dicts preserve insertion order). -/
def insertA {α : Type} : List (String × α) → String → α → List (String × α)
  | [], key, v => [(key, v)]
  | (k, w) :: rest, key, v =>
    if k = key then (key, v) :: rest else (k, w) :: insertA rest key v

/-- In-place update of an existing binding; a no-op when the key is absent.
This models mutating an object that was obtained from a registry dict. -/
def updateA {α : Type} : List (String × α) → String → α → List (String × α)
  | [], _, _ => []
  | (k, w) :: rest, key, v =>
    if k = key then (key, v) :: rest else (k, w) :: updateA rest key v

/-- Lexicographic comparison of character lists by code point, modelling the
comparison Python uses on str values (as invoked by list.sort). -/
def strLtCh : List Char → List Char → Bool
  | [], [] => false
  | [], _ :: _ => true
  | _ :: _, [] => false
  | a :: as, b :: bs =>
    if a.toNat < b.toNat then true
    else if b.toNat < a.toNat then false
    else strLtCh as bs

/-- Python string less-or-equal: a is not greater than b. -/
def pyStrLe (a b : String) : Bool := !(strLtCh b.data a.data)

/-- The ordering relation used to model Python list.sort on strings. -/
def pyLeRel : String → String → Prop := fun a b => pyStrLe a b = true

instance : DecidableRel pyLeRel := fun a b => instDecidableEqBool (pyStrLe a b) true

/-- Model of Python list.sort on a list of strings: sort ascending by the
code-point lexicographic order. -/
def sortStrings (l : List String) : List String := List.insertionSort pyLeRel l

/-- Hexadecimal digit using uppercase letters, as produced by the printf
conversion used in the decoder output. -/
def hexDigit (n : Nat) : Char :=
  if n < 10 then Char.ofNat (48 + n) else Char.ofNat (55 + n)

/-- Digits (most significant first) of n in base 16; fuel-driven recursion,
fuel n + 1 always suffices. -/
def toHexAux : Nat → Nat → List Char
  | 0, _ => []
  | fuel + 1, n =>
    if n < 16 then [hexDigit n]
    else toHexAux fuel (n / 16) ++ [hexDigit (n % 16)]

/-- Uppercase hexadecimal rendering of a natural number, no padding. -/
def toHex (n : Nat) : String := String.mk (toHexAux (n + 1) n)

/-- Left-pad a string with zero characters up to width w. -/
def padZeros (s : String) (w : Nat) : String :=
  String.mk (List.replicate (w - s.data.length) (Char.ofNat 48) ++ s.data)

/-- Model of the printf conversion rendering n as at-least-2-digit uppercase hex. -/
def fmt02X (n : Nat) : String := padZeros (toHex n) 2

/-- Model of the printf conversion rendering n as at-least-3-digit uppercase hex. -/
def fmt03X (n : Nat) : String := padZeros (toHex n) 3

/-- Recognizer for characters that may appear in uppercase hexadecimal output. -/
def isUpperHexCh (c : Char) : Bool :=
  (48 ≤ c.toNat && c.toNat ≤ 57) || (65 ≤ c.toNat && c.toNat ≤ 70)

/-- Model of the printf conversion rendering i as a zero-padded two-digit decimal. -/
def fmt02d (i : Nat) : String := if i < 10 then "0" ++ toString i else toString i

/-! Graph model: components, nets and their registries (source: 08.py classes
CompInst and Net; the registries are the class attributes CompInst.db / Net.db). -/

/-- Component record (source: CompInst.__init__); pins maps a pin identifier to
the name of the net attached to it and is filled in as nets are constructed. -/
structure CompInst where
  name : String
  pins : List (String × String)
  comp_ref : String
  original_name : String
  comp_value : String
  pattern_name : String
deriving DecidableEq

/-- Net record (source: class Net); nodes maps a component reference to the
ordered list of that component's pins connected to this net. -/
structure Net where
  name : String
  nodes : List (String × List String)
deriving DecidableEq

/-- The component registry CompInst.db. -/
abbrev CompDB := List (String × CompInst)

/-- The net registry Net.db. -/
abbrev NetDB := List (String × Net)

/-- Errors raised while building the graph: the failed assert in db_add
(duplicate name) and Python KeyError (missing registry key). -/
inductive RegErr where
  | duplicateDefinition
  | keyError (name : String)
deriving DecidableEq

/-- Source: CompInst.db_add — assert the name is fresh, then register. -/
def CompInst.db_add (db : CompDB) (c : CompInst) : Except RegErr CompDB :=
  match alookup db c.name with
  | some _ => .error .duplicateDefinition
  | none => .ok (db ++ [(c.name, c)])

/-- Source: Net.db_add — assert the name is fresh, then register. -/
def Net.db_add (db : NetDB) (n : Net) : Except RegErr NetDB :=
  match alookup db n.name with
  | some _ => .error .duplicateDefinition
  | none => .ok (db ++ [(n.name, n)])

/-- Source: CompInst.set_pin_net — look the component up in the registry
(KeyError when absent) and assign pins[pin] = net_name, overwriting any
previous binding without any check. -/
def CompInst.set_pin_net (db : CompDB) (cmp_name pin net_name : String) :
    Except RegErr CompDB :=
  match alookup db cmp_name with
  | none => .error (.keyError cmp_name)
  | some c => .ok (updateA db cmp_name { c with pins := insertA c.pins pin net_name })

/-- One step of the node-map construction in Net.__init__: append the pin when
the component reference is already present, otherwise create a singleton entry. -/
def nodesAdd (nodes : List (String × List String)) (ref pin : String) :
    List (String × List String) :=
  match nodes with
  | [] => [(ref, [pin])]
  | (r, ps) :: rest =>
    if r = ref then (r, ps ++ [pin]) :: rest else (r, ps) :: nodesAdd rest ref pin

/-- The node map produced by feeding the given (component-reference, pin) pairs,
in order, through nodesAdd starting from an empty map. -/
def buildNodes (items : List (String × String)) : List (String × List String) :=
  items.foldl (fun acc it => nodesAdd acc it.1 it.2) []

/-- The loop body of Net.__init__: for each (comp_ref, pin) pair extend the
node map and call CompInst.set_pin_net. -/
def netFold (name : String) :
    List (String × String) → List (String × List String) → CompDB →
    Except RegErr (List (String × List String) × CompDB)
  | [], nodes, cdb => .ok (nodes, cdb)
  | (ref, pin) :: rest, nodes, cdb =>
    match CompInst.set_pin_net cdb ref pin name with
    | .error e => .error e
    | .ok cdb2 => netFold name rest (nodesAdd nodes ref pin) cdb2

/-- Source: Net.__init__ — build the node map, cross-reference every component
pin via set_pin_net, then register the finished net via Net.db_add. -/
def Net.init (cdb : CompDB) (ndb : NetDB) (name : String)
    (items : List (String × String)) : Except RegErr (CompDB × NetDB) :=
  match netFold name items [] cdb with
  | .error e => .error e
  | .ok (nodes, cdb2) =>
    match Net.db_add ndb ⟨name, nodes⟩ with
    | .error e => .error e
    | .ok ndb2 => .ok (cdb2, ndb2)

/-! Decoder (source: Netlist.proc_1621 and Netlist.comp_by_pin in 08.py),
modelled on the non-verbose path; the verbose flag only adds extra prints. -/

/-- The graph state the decoder consumes: the two registries plus the items map
of the Netlist object (nets keyed by name, as built by Netlist.__init__). -/
structure DB where
  comps : CompDB
  nets : NetDB
  items : NetDB
deriving DecidableEq

/-- Fatal decoder outcomes: the three sys.exit(os.EX_DATAERR) paths (missing
net, zero matches, duplicated match) and an uncaught Python KeyError. -/
inductive DecodeErr where
  | netNotFound (name : String)
  | noComp (netName : String)
  | duplicatedComp (netName : String)
  | keyErr (key : String)
deriving DecidableEq

/-- Process exit status of each fatal outcome: os.EX_DATAERR is 65; an uncaught
KeyError makes the interpreter exit with status 1. -/
def DecodeErr.exitCode : DecodeErr → Nat
  | .netNotFound _ => 65
  | .noComp _ => 65
  | .duplicatedComp _ => 65
  | .keyErr _ => 1

/-- The test used on a node entry: len(pins) == 1 and pins[0] == p. -/
def singletonIs (pins : List String) (p : String) : Bool :=
  pins.length == 1 && pins.head? == some p

/-- The scan loop of Netlist.comp_by_pin: remember the first node whose pin
list is exactly [npin]; a second such node exits with EX_DATAERR. -/
def scanPin (netName : String) :
    List (String × List String) → String → Option String →
    Except DecodeErr (Option String)
  | [], _, acc => .ok acc
  | (ref, pins) :: rest, npin, acc =>
    if singletonIs pins npin then
      match acc with
      | some _ => .error (.duplicatedComp netName)
      | none => scanPin netName rest npin (some ref)
    else scanPin netName rest npin acc

/-- Number of nodes of the net whose pin list is exactly [npin]. -/
def matchCount (nodes : List (String × List String)) (npin : String) : Nat :=
  (nodes.filter (fun e => singletonIs e.2 npin)).length

/-- Source: Netlist.comp_by_pin — find the unique component attached to the
net through exactly the pin npin; zero or two matches exit with EX_DATAERR. -/
def Netlist.comp_by_pin (db : DB) (vnet : Net) (npin : String) :
    Except DecodeErr CompInst :=
  match scanPin vnet.name vnet.nodes npin none with
  | .error e => .error e
  | .ok none => .error (.noComp vnet.name)
  | .ok (some ref) =>
    match alookup db.comps ref with
    | none => .error (.keyErr ref)
    | some c => .ok c

/-- Source: Net.get_by_name — registry lookup that exits with EX_DATAERR when
the net name is absent. -/
def Net.get_by_name (ndb : NetDB) (name : String) : Except DecodeErr Net :=
  match alookup ndb name with
  | none => .error (.netNotFound name)
  | some n => .ok n

/-- Decimal digit test. -/
def isDigitCh (c : Char) : Bool := 48 ≤ c.toNat && c.toNat ≤ 57

/-- Value of a (most-significant-first) decimal digit list. -/
def digitsToNat (cs : List Char) : Nat := cs.foldl (fun a c => a * 10 + (c.toNat - 48)) 0

/-- Full match of the regular expression LC\d{1,2}. -/
def lcMatch (s : String) : Bool :=
  match s.data with
  | 'L' :: 'C' :: ds => (ds.length == 1 || ds.length == 2) && ds.all isDigitCh
  | _ => false

/-- Full match of the regular expression ~LC\d{1,2}. -/
def tildeLcMatch (s : String) : Bool :=
  match s.data with
  | '~' :: 'L' :: 'C' :: ds => (ds.length == 1 || ds.length == 2) && ds.all isDigitCh
  | _ => false

/-- Full match of the regular expression ~TC\d. -/
def tildeTcMatch (s : String) : Bool :=
  match s.data with
  | '~' :: 'T' :: 'C' :: ds => ds.length == 1 && ds.all isDigitCh
  | _ => false

/-- Value of int(l[2:]) for an LC tag. -/
def lcVal (s : String) : Nat := digitsToNat (s.data.drop 2)

/-- Value of int(l[3:]) for a ~LC or ~TC tag. -/
def tildeVal (s : String) : Nat := digitsToNat (s.data.drop 3)

/-- The set/clear mask accumulation loop over the data net's nodes in
proc_1621: only nodes whose pin list is exactly ["3"] participate; the
tag read from that component's pin 2 net name feeds the clear mask (LCnn)
or the set mask (~LCnn). -/
def accumMasks (db : DB) :
    List (String × List String) → Nat → Nat → Except DecodeErr (Nat × Nat)
  | [], seta, clra => .ok (seta, clra)
  | (ref, pins) :: rest, seta, clra =>
    if singletonIs pins "3" then
      match alookup db.comps ref with
      | none => .error (.keyErr ref)
      | some cmp =>
        match alookup cmp.pins "2" with
        | none => .error (.keyErr "2")
        | some l =>
          let clra2 := if lcMatch l then clra ||| (1 <<< lcVal l) else clra
          let seta2 := if tildeLcMatch l then seta ||| (1 <<< tildeVal l) else seta
          accumMasks db rest seta2 clra2
    else accumMasks db rest seta clra

/-- The secondary (tc) mask accumulation loop over the link net's own nodes:
only nodes whose pin list is exactly ["2"] participate; a ~TCn tag on that
component's pin 3 net name sets the corresponding bit. -/
def accumTC (db : DB) :
    List (String × List String) → Nat → Except DecodeErr Nat
  | [], seta => .ok seta
  | (ref, pins) :: rest, seta =>
    if singletonIs pins "2" then
      match alookup db.comps ref with
      | none => .error (.keyErr ref)
      | some cmp =>
        match alookup cmp.pins "3" with
        | none => .error (.keyErr "3")
        | some s =>
          accumTC db rest (if tildeTcMatch s then seta ||| (1 <<< tildeVal s) else seta)
    else accumTC db rest seta

/-- Render the 11-bit row string, most significant bit first: 1 where set,
0 where clear, x where neither (the loop prepends for j = 0 .. 10). -/
def renderBits (seta clra : Nat) : String :=
  (List.range 11).foldl
    (fun l j =>
      (if seta &&& (1 <<< j) ≠ 0 then "1"
       else if clra &&& (1 <<< j) ≠ 0 then "0"
       else "x") ++ l)
    ""

/-- The primary row net name, VLINK_%02d. -/
def vlinkName (i : Nat) : String := "VLINK_" ++ fmt02d i

/-- The secondary row net name, TLINK_%02d. -/
def tlinkName (i : Nat) : String := "TLINK_" ++ fmt02d i

/-- The conflict log line: Net: %s bitmask %03X %03X error. -/
def conflictMsg (name : String) (seta clra : Nat) : String :=
  "Net: " ++ name ++ " bitmask " ++ fmt03X seta ++ " " ++ fmt03X clra ++ " error"

/-- Outcome of one primary decode row that did not abort the run. -/
inductive RowResult where
  | conflict (netName : String) (seta clra : Nat)
  | decoded (bits : String) (tc : Nat)
deriving DecidableEq

/-- One iteration of the primary loop of proc_1621 for row i: resolve the
VLINK net, find the unique strobe component (pin 1), follow its pin 3 to
the data net in the netlist items, accumulate the two masks, and either
report a conflict or decode the bit string together with its tc mask. -/
def procRow (db : DB) (i : Nat) : Except DecodeErr RowResult :=
  match Net.get_by_name db.nets (vlinkName i) with
  | .error e => .error e
  | .ok vnet =>
    match Netlist.comp_by_pin db vnet "1" with
    | .error e => .error e
    | .ok vcmp =>
      match alookup vcmp.pins "3" with
      | none => .error (.keyErr "3")
      | some p3 =>
        match alookup db.items p3 with
        | none => .error (.keyErr p3)
        | some pnet =>
          match accumMasks db pnet.nodes 0 0 with
          | .error e => .error e
          | .ok (seta, clra) =>
            if seta &&& clra ≠ 0 then .ok (.conflict vnet.name seta clra)
            else
              match accumTC db vnet.nodes 0 with
              | .error e => .error e
              | .ok tc => .ok (.decoded (renderBits seta clra) tc)

/-- Accumulator state of the primary loop: the printed conflict log lines and
the vlist / vdict / vlitc collections of proc_1621. -/
structure LoopState where
  log : List String
  vlist : List String
  vdict : List (String × Nat)
  vlitc : List (String × Nat)
deriving DecidableEq

/-- The state at loop entry. -/
def init0 : LoopState := ⟨[], [], [], []⟩

/-- The primary loop over the given row indices: a fatal row error stops the
whole run at once; a conflict row only logs; a decoded row appends its bit
string to vlist and records its row index and tc mask. -/
def procRowsFrom (db : DB) : List Nat → LoopState → LoopState × Option DecodeErr
  | [], st => (st, none)
  | i :: rest, st =>
    match procRow db i with
    | .error e => (st, some e)
    | .ok (.conflict n s c) =>
      procRowsFrom db rest { st with log := st.log ++ [conflictMsg n s c] }
    | .ok (.decoded bits tc) =>
      procRowsFrom db rest
        { st with
          vlist := st.vlist ++ [bits]
          vdict := insertA st.vdict bits i
          vlitc := insertA st.vlitc bits tc }

/-- The secondary (TLINK) validation loop: look each net up (EX_DATAERR exit
when absent) and run the unique-strobe-component query; nothing is recorded. -/
def procTLinkFrom (db : DB) : List Nat → Option DecodeErr
  | [] => none
  | i :: rest =>
    match alookup db.nets (tlinkName i) with
    | none => some (.netNotFound (tlinkName i))
    | some vnet =>
      match Netlist.comp_by_pin db vnet "1" with
      | .error e => some e
      | .ok _ => procTLinkFrom db rest

/-- The assignment table line: assign pl[%d] = cmp(lc, 11'b%s); . -/
def assignLine (vdict : List (String × Nat)) (l : String) : String :=
  "assign pl[" ++ toString ((alookup vdict l).getD 0) ++ "] = cmp(lc, 11" ++ sqS
    ++ "b" ++ l ++ ");"

/-- The lookup table line: 11'b%s: tc = 7'x%02X; . -/
def lookupLine (vlitc : List (String × Nat)) (l : String) : String :=
  "11" ++ sqS ++ "b" ++ l ++ ": tc = 7" ++ sqS ++ "x"
    ++ fmt02X ((alookup vlitc l).getD 0) ++ ";"

/-- The header line printed before the two table blocks. -/
def headerLine : String := "mcp1621 arrays 0/1"

/-- Source: Netlist.proc_1621 — run the 88 primary rows; on success sort vlist
and print the assignment block then the lookup block, then run the 100-row
TLINK validation loop. The first component collects every line printed to
stdout (in order); the second is the fatal outcome, if any. -/
def Netlist.proc_1621 (db : DB) : List String × Option DecodeErr :=
  match procRowsFrom db (List.range 88) init0 with
  | (st, some e) => (st.log, some e)
  | (st, none) =>
    (st.log ++ headerLine :: ((sortStrings st.vlist).map (assignLine st.vdict)
        ++ (sortStrings st.vlist).map (lookupLine st.vlitc)),
     procTLinkFrom db (List.range 100))

/-- Modelled from the spec: the emission as the claim states it, namely one
assignment line and one lookup line per DISTINCT decoded bit string, in
sorted order. Used only to compare the claimed behaviour with the code. -/
def claimEmitDistinct (st : LoopState) : List String :=
  st.log ++ headerLine :: ((sortStrings st.vlist).dedup.map (assignLine st.vdict)
      ++ (sortStrings st.vlist).dedup.map (lookupLine st.vlitc))

/-! Symbol interning and atom classification (source: Sym and Lexer.atom in
08.py; the hidden mutable default dict of Sym is made explicit, and object
identity is modelled by giving every interned symbol a numeric identity). -/

/-- The symbol table hidden in the default argument of Sym: spelling to
object identity, plus the identity to use for the next fresh symbol. -/
structure SymTable where
  entries : List (String × Nat)
  next : Nat
deriving DecidableEq

/-- The table state after module initialisation, where Sym has been called for
the quote and quasiquote symbols. -/
def initSymTable : SymTable := ⟨[("quote", 0), ("quasiquote", 1)], 2⟩

/-- Source: Sym — find or create the unique Symbol entry for the spelling. -/
def Sym (s : String) (t : SymTable) : Nat × SymTable :=
  match alookup t.entries s with
  | some id => (id, t)
  | none => (t.next, ⟨t.entries ++ [(s, t.next)], t.next + 1⟩)

/-- Classified atom values: string literal, integer, float (the token kept
verbatim; its numeric value is irrelevant here), or interned symbol. -/
inductive PAtom where
  | strA (s : String)
  | intA (n : Int)
  | floatA (tok : String)
  | symA (id : Nat)
deriving DecidableEq

/-- Digit-list value when the list is nonempty and all decimal digits. -/
def digitsVal? (cs : List Char) : Option Nat :=
  if !cs.isEmpty && cs.all isDigitCh then some (digitsToNat cs) else none

/-- Modelled subset of CPython int() as used on lexer tokens: an optional
sign followed by decimal digits (underscore grouping, surrounding
whitespace and non-ASCII digits are not modelled). -/
def pyInt? (s : String) : Option Int :=
  match s.data with
  | [] => none
  | c :: cs =>
    if c.toNat = 45 then (digitsVal? cs).map (fun n => -(n : Int))
    else if c.toNat = 43 then (digitsVal? cs).map (fun n => (n : Int))
    else (digitsVal? (c :: cs)).map (fun n => (n : Int))

/-- Strip one leading sign character. -/
def splitSignCh : List Char → List Char
  | [] => []
  | c :: cs => if c.toNat = 43 || c.toNat = 45 then cs else c :: cs

/-- Split at the first exponent marker e or E. -/
def splitExpCh : List Char → List Char × Option (List Char)
  | [] => ([], none)
  | c :: cs =>
    if c.toNat = 101 || c.toNat = 69 then ([], some cs)
    else
      let r := splitExpCh cs
      (c :: r.1, r.2)

/-- Mantissa check: digits and at most one dot, with at least one digit. -/
def mantOk (cs : List Char) : Bool :=
  cs.all (fun c => isDigitCh c || c.toNat = 46) &&
  (cs.filter (fun c => c.toNat = 46)).length ≤ 1 &&
  cs.any isDigitCh

/-- Exponent check: optional sign then a nonempty digit run. -/
def expOk (cs : List Char) : Bool :=
  let ds := splitSignCh cs
  !ds.isEmpty && ds.all isDigitCh

/-- Lowercase an ASCII letter. -/
def toLowerCh (c : Char) : Char :=
  if 65 ≤ c.toNat && c.toNat ≤ 90 then Char.ofNat (c.toNat + 32) else c

/-- Modelled subset of CPython float() syntax as used on lexer tokens:
signed decimal mantissa with optional fraction and exponent, or the
case-insensitive words inf, infinity, nan (underscore grouping and
surrounding whitespace are not modelled). -/
def pyFloatSyntax (s : String) : Bool :=
  let cs := splitSignCh s.data
  let low := cs.map toLowerCh
  if low = "inf".data || low = "infinity".data || low = "nan".data then true
  else
    match splitExpCh cs with
    | (m, none) => mantOk m
    | (m, some e) => mantOk m && expOk e

/-- Source: Lexer.atom in 08.py — a token starting with a double quote is the
string literal with the surrounding quotes stripped (token[1:-1], escapes
kept verbatim); otherwise try int, then float, then intern as a Symbol. -/
def Lexer.atom (token : String) (t : SymTable) : PAtom × SymTable :=
  if token.data.head? = some dqCh then
    (.strA (String.mk (token.data.drop 1).dropLast), t)
  else
    match pyInt? token with
    | some n => (.intA n, t)
    | none =>
      if pyFloatSyntax token then (.floatA token, t)
      else
        let r := Sym token t
        (.symA r.1, r.2)

/-- Atom values of the 03.py prototype: a symbol is a fresh str-subclass
object, so it carries its spelling together with its allocation identity. -/
inductive PAtom03 where
  | strA (s : String)
  | intA (n : Int)
  | floatA (tok : String)
  | symA (spelling : String) (oid : Nat)
deriving DecidableEq

/-- Source: the module-level atom of 03.py — identical classification, but the
symbol branch is Symbol(token): it allocates a fresh object every time
instead of consulting the intern table. The counter models the allocator. -/
def atom03 (token : String) (ctr : Nat) : PAtom03 × Nat :=
  if token.data.head? = some dqCh then
    (.strA (String.mk (token.data.drop 1).dropLast), ctr)
  else
    match pyInt? token with
    | some n => (.intA n, ctr)
    | none =>
      if pyFloatSyntax token then (.floatA token, ctr)
      else (.symA token ctr, ctr + 1)

/-! Tokenizer (source: Lexer.next_token in 08.py and in 03.py). Physical
input is the list of not-yet-read lines; readline on exhausted input keeps
returning the empty string, which is the end-of-file condition. -/

/-- Tokenizer state: remaining physical lines, current line buffer, and the
line counter l_num. -/
structure Lexer where
  lines : List String
  line : String
  l_num : Nat
deriving DecidableEq

/-- Model of file readline: the next physical line (never empty for a real
line, since it keeps its newline) or the empty string at end of file. -/
def readline : List String → String × List String
  | [] => ("", [])
  | l :: ls => (l, ls)

/-- ASCII whitespace as matched by the tokenizer regex class. -/
def isSpaceCh (c : Char) : Bool :=
  c.toNat = 32 || c.toNat = 9 || c.toNat = 10 || c.toNat = 13 ||
  c.toNat = 11 || c.toNat = 12

/-- The delimiter characters excluded from a bare token. -/
def isDelimCh (c : Char) : Bool :=
  c.toNat = 40 || c.toNat = 41 || c.toNat = 39 || c.toNat = 34 ||
  c.toNat = 96 || c.toNat = 44 || c.toNat = 59

/-- A character that may appear in a bare token. -/
def bareCh (c : Char) : Bool := !(isSpaceCh c) && !(isDelimCh c)

/-- Scan the body of a double-quoted string literal after the opening quote:
backslash escapes are kept verbatim (the escaped character may not be a
newline); returns the body and the text after the closing quote, or none
when the literal never closes. -/
def scanStrBody : List Char → Option (List Char × List Char)
  | [] => none
  | c :: cs =>
    if c.toNat = 34 then some ([], cs)
    else if c.toNat = 92 then
      match cs with
      | [] => none
      | d :: cs2 =>
        if d.toNat = 10 then none
        else
          match scanStrBody cs2 with
          | none => none
          | some (b, r) => some (c :: d :: b, r)
    else
      match scanStrBody cs with
      | none => none
      | some (b, r) => some (c :: b, r)

/-- One application of the tokenizer regular expression to the line buffer:
skip whitespace, then match in order a ,@ pair, a single delimiter, a
string literal, a comment to end of line, or a (possibly empty) bare run;
the returned remainder stops before any newline, which the regex drops. -/
def tokStep (line : String) : String × String :=
  let cs := line.data.dropWhile isSpaceCh
  let p : List Char × List Char :=
    match cs with
    | [] => ([], [])
    | c1 :: cs1 =>
      if c1.toNat = 44 then
        match cs1 with
        | c2 :: cs2 => if c2.toNat = 64 then ([c1, c2], cs2) else ([c1], cs1)
        | [] => ([c1], cs1)
      else if c1.toNat = 40 || c1.toNat = 41 || c1.toNat = 39 || c1.toNat = 96 then
        ([c1], cs1)
      else if c1.toNat = 34 then
        match scanStrBody cs1 with
        | some (body, rest) => (c1 :: (body ++ [Char.ofNat 34]), rest)
        | none => ([], cs)
      else if c1.toNat = 59 then
        (cs.takeWhile (fun c => c.toNat ≠ 10), cs.dropWhile (fun c => c.toNat ≠ 10))
      else
        (cs.takeWhile bareCh, cs.dropWhile bareCh)
  (String.mk p.1, String.mk (p.2.takeWhile (fun c => c.toNat ≠ 10)))

/-- Result of one next_token call of the 08.py tokenizer. -/
inductive TokOut where
  | eofTok (st : Lexer)
  | tokS (s : String) (st : Lexer)
deriving DecidableEq

/-- Source: Lexer.next_token in 08.py — refill the line buffer when empty;
an empty refill is end of file; otherwise take one token, skipping empty
matches and comments. Fuel bounds the skip loop (none means the fuel ran
out; the Python loop does not terminate on a line it cannot consume). -/
def Lexer.next_tokenF : Nat → Lexer → Option TokOut
  | 0, _ => none
  | fuel + 1, st =>
    let r := readline st.lines
    let st1 := if st.line = "" then Lexer.mk r.2 r.1 (st.l_num + 1) else st
    if st1.line = "" then some (.eofTok st1)
    else
      let tp := tokStep st1.line
      let st2 := Lexer.mk st1.lines tp.2 st1.l_num
      if tp.1 ≠ "" ∧ tp.1.data.head? ≠ some (Char.ofNat 59) then some (.tokS tp.1 st2)
      else Lexer.next_tokenF fuel st2

/-- Result of one next_token call of the 03.py tokenizer, which can also
raise RuntimeError from its FIXME guard. -/
inductive Tok03Out where
  | eofTok (st : Lexer)
  | tokS (s : String) (st : Lexer)
  | runtimeError
deriving DecidableEq

/-- Source: Lexer.next_token in 03.py — identical to the 08.py version except
for the FIXME guard: at end of file, when l_num exceeds 100, it raises
RuntimeError instead of returning the eof marker. -/
def Lexer.next_token03F : Nat → Lexer → Option Tok03Out
  | 0, _ => none
  | fuel + 1, st =>
    let r := readline st.lines
    let st1 := if st.line = "" then Lexer.mk r.2 r.1 (st.l_num + 1) else st
    if st1.line = "" then
      if 100 < st1.l_num then some .runtimeError else some (.eofTok st1)
    else
      let tp := tokStep st1.line
      let st2 := Lexer.mk st1.lines tp.2 st1.l_num
      if tp.1 ≠ "" ∧ tp.1.data.head? ≠ some (Char.ofNat 59) then some (.tokS tp.1 st2)
      else Lexer.next_token03F fuel st2

/-! Reader (source: Lexer.read_stream in 08.py, read_lex_stream in 03.py).
The token stream is abstracted as the list of tokens still to come; the
empty list stands for the tokenizer returning the eof object forever. -/

/-- The quotes dict: quote marker token to the pre-interned symbol identity
(quote is 0 and quasiquote is 1 in the table built at module start). -/
def quoteSym? (tok : String) : Option Nat :=
  if tok = sqS then some 0 else if tok = bqS then some 1 else none

/-- Reader expressions: atoms, lists, and the eof object (which read_stream
returns at stream boundary and which a quote at eof can wrap). -/
inductive RExp where
  | atomE (a : PAtom)
  | listE (l : List RExp)
  | eofE

/-- Reader failures: the two SyntaxError paths, plus fuel exhaustion of the
model (the recursion depth is bounded by the token count in practice). -/
inductive RErr where
  | fuelOut
  | unexpectedClose
  | eofInList
deriving DecidableEq

mutual

/-- Source: the read_ahead inner function of Lexer.read_stream in 08.py; on a
quote marker it reads exactly one following expression through
self.read_stream(), whose body is inlined here on the same stream. -/
def readAheadF : Nat → String → List String → SymTable →
    Except RErr (RExp × List String × SymTable)
  | 0, _, _, _ => .error .fuelOut
  | fuel + 1, tok, ts, t =>
    if tok = "(" then readListF fuel ts t []
    else if tok = ")" then .error .unexpectedClose
    else
      match quoteSym? tok with
      | some q =>
        match ts with
        | [] => .ok (.listE [.atomE (.symA q), .eofE], [], t)
        | tok2 :: rest2 =>
          match readAheadF fuel tok2 rest2 t with
          | .error e => .error e
          | .ok (e, ts2, t2) => .ok (.listE [.atomE (.symA q), e], ts2, t2)
      | none =>
        let r := Lexer.atom tok t
        .ok (.atomE r.1, ts, r.2)

/-- The list-collecting loop of read_ahead: read until the matching close
paren; end of stream inside the list is the unexpected-EOF SyntaxError. -/
def readListF : Nat → List String → SymTable → List RExp →
    Except RErr (RExp × List String × SymTable)
  | 0, _, _, _ => .error .fuelOut
  | fuel + 1, ts, t, acc =>
    match ts with
    | [] => .error .eofInList
    | tok :: rest =>
      if tok = ")" then .ok (.listE acc, rest, t)
      else
        match readAheadF fuel tok rest t with
        | .error e => .error e
        | .ok (e, ts2, t2) => readListF fuel ts2 t2 (acc ++ [e])

end

/-- Source: the body of Lexer.read_stream in 08.py — eof at stream boundary
yields the eof object, otherwise hand the first token to read_ahead. -/
def readStreamF (fuel : Nat) (ts : List String) (t : SymTable) :
    Except RErr (RExp × List String × SymTable) :=
  match ts with
  | [] => .ok (.eofE, [], t)
  | tok :: rest => readAheadF fuel tok rest t

/-- Reader expressions of the 03.py prototype. -/
inductive RExp03 where
  | atomE (a : PAtom03)
  | listE (l : List RExp03)
  | eofE

/-- Reader failures of the 03.py prototype: as in 08.py, plus the NameError
raised by its quote branch. -/
inductive RErr03 where
  | fuelOut
  | unexpectedClose
  | eofInList
  | nameError
deriving DecidableEq

mutual

/-- Source: the read_ahead inner function of read_lex_stream in 03.py; its
quote branch evaluates read(inport), two names that are defined nowhere
in that module, so reaching it raises NameError. -/
def readAhead03F : Nat → String → List String → Nat →
    Except RErr03 (RExp03 × List String × Nat)
  | 0, _, _, _ => .error .fuelOut
  | fuel + 1, tok, ts, ctr =>
    if tok = "(" then readList03F fuel ts ctr []
    else if tok = ")" then .error .unexpectedClose
    else if (quoteSym? tok).isSome then .error .nameError
    else
      let r := atom03 tok ctr
      .ok (.atomE r.1, ts, r.2)

/-- The list-collecting loop of read_ahead in 03.py. -/
def readList03F : Nat → List String → Nat → List RExp03 →
    Except RErr03 (RExp03 × List String × Nat)
  | 0, _, _, _ => .error .fuelOut
  | fuel + 1, ts, ctr, acc =>
    match ts with
    | [] => .error .eofInList
    | tok :: rest =>
      if tok = ")" then .ok (.listE acc, rest, ctr)
      else
        match readAhead03F fuel tok rest ctr with
        | .error e => .error e
        | .ok (e, ts2, ctr2) => readList03F fuel ts2 ctr2 (acc ++ [e])

end

/-! Concrete databases used to instantiate the theorems. -/

/-- The all-x bit string produced by a row with empty masks. -/
def xBits : String := "xxxxxxxxxxx"

/-- Demo component for row i: pin 1 on the row's VLINK net, pin 2 on a plain
net G carrying no tag, pin 3 on the row's data net P<i>. -/
def demoComp (i : Nat) : String × CompInst :=
  ("C" ++ toString i,
   ⟨"C" ++ toString i,
    [("1", vlinkName i), ("2", "G"), ("3", "P" ++ toString i)], "", "", "", ""⟩)

/-- Demo link net for row i: exactly one node, the row component on pin 1. -/
def demoVNet (i : Nat) : String × Net :=
  (vlinkName i, ⟨vlinkName i, [("C" ++ toString i, ["1"])]⟩)

/-- Demo data net for row i: exactly one node, the row component on pin 3. -/
def demoPNet (i : Nat) : String × Net :=
  ("P" ++ toString i, ⟨"P" ++ toString i, [("C" ++ toString i, ["3"])]⟩)

/-- A registry state on which all 88 primary rows decode successfully and all
of them produce the same all-x bit string (no tag components anywhere). -/
def demoDB : DB :=
  { comps := (List.range 88).map demoComp
    nets := (List.range 88).map demoPNet ++ (List.range 88).map demoVNet
    items := (List.range 88).map demoPNet ++ (List.range 88).map demoVNet }

/-- The primary-loop state reached on demoDB: 88 copies of the same bit
string in vlist, and single vdict / vlitc bindings left by the last row. -/
def demoSt : LoopState :=
  ⟨[], List.replicate 88 xBits, [(xBits, 87)], [(xBits, 0)]⟩

/-- The ordered pins a given component reference contributes to a node list. -/
def pinsOf (items : List (String × String)) (ref : String) : List String :=
  (items.filter (fun it => it.1 == ref)).map Prod.snd

/-- A bare component used to exercise the registries. -/
def compU1 : CompInst := ⟨"U1", [], "", "", "", ""⟩

/-- A bare net used to exercise the registries. -/
def netW : Net := ⟨"N1", []⟩

/-- The empty registry state. -/
def emptyDB : DB := ⟨[], [], []⟩

/-- A state where net VLINK_00 exists but no node matches strobe pin 1. -/
def noMatchDB : DB := ⟨[], [("VLINK_00", ⟨"VLINK_00", [("A", ["2"])]⟩)], []⟩

/-- A state where two nodes of VLINK_00 both match strobe pin 1. -/
def dupDB : DB := ⟨[], [("VLINK_00", ⟨"VLINK_00", [("A", ["1"]), ("B", ["1"])]⟩)], []⟩

/-- A state whose row 0 has bit 3 both set and cleared (tags LC3 and ~LC3 on
the data net PC), so the row is a decode conflict. -/
def conflictDB : DB :=
  ⟨[("CA", ⟨"CA", [("1", "VLINK_00"), ("2", "G"), ("3", "PC")], "", "", "", ""⟩),
    ("D1", ⟨"D1", [("2", "LC3"), ("3", "PC")], "", "", "", ""⟩),
    ("D2", ⟨"D2", [("2", "~LC3"), ("3", "PC")], "", "", "", ""⟩)],
   [("VLINK_00", ⟨"VLINK_00", [("CA", ["1"])]⟩),
    ("PC", ⟨"PC", [("CA", ["3"]), ("D1", ["3"]), ("D2", ["3"])]⟩)],
   [("VLINK_00", ⟨"VLINK_00", [("CA", ["1"])]⟩),
    ("PC", ⟨"PC", [("CA", ["3"]), ("D1", ["3"]), ("D2", ["3"])]⟩)]⟩

/-- A state whose row 0 decodes normally to the all-x bit string. -/
def okDB : DB :=
  ⟨[("C0", ⟨"C0", [("1", "VLINK_00"), ("2", "G"), ("3", "P0")], "", "", "", ""⟩)],
   [("VLINK_00", ⟨"VLINK_00", [("C0", ["1"])]⟩), ("P0", ⟨"P0", [("C0", ["3"])]⟩)],
   [("VLINK_00", ⟨"VLINK_00", [("C0", ["1"])]⟩), ("P0", ⟨"P0", [("C0", ["3"])]⟩)]⟩

end NetlistModel

namespace NetlistModel

/-! Theorems: association lists, string order, hexadecimal rendering. -/

theorem alookup_nil {α : Type} (key : String) :
    alookup ([] : List (String × α)) key = none := rfl

theorem alookup_cons {α : Type} (k : String) (v : α) (rest : List (String × α)) (key : String) :
    alookup ((k, v) :: rest) key = if k = key then some v else alookup rest key := rfl

theorem alookup_append_left {α : Type} {m : List (String × α)} {key : String} {v : α}
    (m2 : List (String × α)) (h : alookup m key = some v) :
    alookup (m ++ m2) key = some v := by
  induction m with
  | nil => simp [alookup] at h
  | cons hd tl ih =>
    obtain ⟨k, w⟩ := hd
    rw [alookup_cons] at h
    by_cases hk : k = key
    · simp [alookup, hk] at h ⊢; exact h
    · simp only [List.cons_append, alookup_cons, if_neg hk] at h ⊢
      exact ih h

theorem alookup_append_none {α : Type} {m : List (String × α)} {key : String}
    (m2 : List (String × α)) (h : alookup m key = none) :
    alookup (m ++ m2) key = alookup m2 key := by
  induction m with
  | nil => rfl
  | cons hd tl ih =>
    obtain ⟨k, w⟩ := hd
    rw [alookup_cons] at h
    by_cases hk : k = key
    · simp [hk] at h
    · simp only [List.cons_append, alookup_cons, if_neg hk] at h ⊢
      exact ih h

theorem alookup_insertA_self {α : Type} (m : List (String × α)) (key : String) (v : α) :
    alookup (insertA m key v) key = some v := by
  induction m with
  | nil => simp [insertA, alookup]
  | cons hd tl ih =>
    obtain ⟨k, w⟩ := hd
    by_cases hk : k = key
    · simp [insertA, hk, alookup]
    · simp [insertA, hk, alookup, ih]

theorem alookup_insertA_ne {α : Type} (m : List (String × α)) (key key2 : String) (v : α)
    (h : key2 ≠ key) : alookup (insertA m key v) key2 = alookup m key2 := by
  have h2 : key ≠ key2 := Ne.symm h
  induction m with
  | nil => simp [insertA, alookup, h2]
  | cons hd tl ih =>
    obtain ⟨k, w⟩ := hd
    by_cases hk : k = key
    · subst hk
      simp [insertA, alookup, h2]
    · simp [insertA, hk, alookup, ih]

theorem alookup_updateA_self {α : Type} {m : List (String × α)} {key : String} {w : α}
    (v : α) (h : alookup m key = some w) :
    alookup (updateA m key v) key = some v := by
  induction m with
  | nil => simp [alookup] at h
  | cons hd tl ih =>
    obtain ⟨k, u⟩ := hd
    rw [alookup_cons] at h
    by_cases hk : k = key
    · simp [updateA, hk, alookup]
    · simp only [updateA, if_neg hk, alookup_cons, if_neg hk] at h ⊢
      exact ih h

theorem alookup_updateA_ne {α : Type} (m : List (String × α)) (key key2 : String) (v : α)
    (h : key2 ≠ key) : alookup (updateA m key v) key2 = alookup m key2 := by
  have h2 : key ≠ key2 := Ne.symm h
  induction m with
  | nil => rfl
  | cons hd tl ih =>
    obtain ⟨k, u⟩ := hd
    by_cases hk : k = key
    · subst hk
      simp [updateA, alookup, h2]
    · simp [updateA, hk, alookup, ih]

theorem strLtCh_irrefl (as : List Char) : strLtCh as as = false := by
  induction as with
  | nil => rfl
  | cons a tl ih => simp [strLtCh, ih]

theorem strLtCh_asymm {as bs : List Char} (h : strLtCh as bs = true) :
    strLtCh bs as = false := by
  induction as generalizing bs with
  | nil =>
    cases bs with
    | nil => simp [strLtCh] at h
    | cons b tl => simp [strLtCh]
  | cons a tl ih =>
    cases bs with
    | nil => simp [strLtCh] at h
    | cons b tl2 =>
      simp only [strLtCh] at h ⊢
      by_cases h1 : a.toNat < b.toNat
      · have h2 : ¬ b.toNat < a.toNat := by omega
        simp [h1, h2]
      · by_cases h2 : b.toNat < a.toNat
        · simp [h1, h2] at h
        · simp only [if_neg h1, if_neg h2] at h ⊢
          exact ih h

theorem strLtCh_le_trans {as bs cs : List Char}
    (h1 : strLtCh bs as = false) (h2 : strLtCh cs bs = false) :
    strLtCh cs as = false := by
  induction as generalizing bs cs with
  | nil => cases cs <;> rfl
  | cons a atl ih =>
    cases cs with
    | nil =>
      cases bs with
      | nil => simp [strLtCh] at h1
      | cons b btl => simp [strLtCh] at h2
    | cons c ctl =>
      cases bs with
      | nil => simp [strLtCh] at h1
      | cons b btl =>
        simp only [strLtCh] at h1 h2 ⊢
        by_cases hba : b.toNat < a.toNat
        · simp [hba] at h1
        · by_cases hcb : c.toNat < b.toNat
          · simp [hcb] at h2
          · by_cases hca : c.toNat < a.toNat
            · exact absurd hca (by omega)
            · rw [if_neg hca]
              by_cases hac : a.toNat < c.toNat
              · simp [hac]
              · have haeqb : ¬ a.toNat < b.toNat := by omega
                have hbeqc : ¬ b.toNat < c.toNat := by omega
                rw [if_neg hba, if_neg haeqb] at h1
                rw [if_neg hcb, if_neg hbeqc] at h2
                rw [if_neg hac]
                exact ih h1 h2

theorem pyLeRel_total : ∀ a b : String, pyLeRel a b ∨ pyLeRel b a := by
  intro a b
  unfold pyLeRel pyStrLe
  by_cases h : strLtCh b.data a.data = true
  · right
    simp [strLtCh_asymm h]
  · left
    simp [Bool.not_eq_true] at h
    simp [h]

theorem pyLeRel_trans : ∀ a b c : String, pyLeRel a b → pyLeRel b c → pyLeRel a c := by
  intro a b c hab hbc
  unfold pyLeRel pyStrLe at hab hbc ⊢
  simp only [Bool.not_eq_true', Bool.not_eq_eq_eq_not, Bool.not_true] at hab hbc ⊢
  exact strLtCh_le_trans hab hbc

theorem sortStrings_sorted (l : List String) : List.Sorted pyLeRel (sortStrings l) :=
  @List.sorted_insertionSort String pyLeRel _ ⟨pyLeRel_total⟩
    ⟨fun a b c => pyLeRel_trans a b c⟩ l

theorem sortStrings_perm (l : List String) : (sortStrings l).Perm l :=
  List.perm_insertionSort pyLeRel l

theorem hexDigit_upper : ∀ n, n < 16 → isUpperHexCh (hexDigit n) = true := by decide

theorem toHexAux_upper (fuel : Nat) : ∀ n, (toHexAux fuel n).all isUpperHexCh = true := by
  induction fuel with
  | zero => intro n; rfl
  | succ fuel ih =>
    intro n
    by_cases h : n < 16
    · simp [toHexAux, h, List.all_cons, hexDigit_upper n h]
    · simp only [toHexAux, if_neg h, List.all_append, List.all_cons, List.all_nil,
        Bool.and_eq_true]
      exact ⟨ih (n / 16), hexDigit_upper (n % 16) (Nat.mod_lt n (by omega)), trivial⟩

theorem fmt02X_upper (n : Nat) : (fmt02X n).data.all isUpperHexCh = true := by
  unfold fmt02X padZeros toHex
  simp only [List.all_append, Bool.and_eq_true]
  constructor
  · have : ∀ k, (List.replicate k (Char.ofNat 48)).all isUpperHexCh = true := by
      intro k
      induction k with
      | zero => rfl
      | succ k ih => simp [List.replicate, List.all_cons, ih]; decide
    exact this _
  · exact toHexAux_upper (n + 1) n

/-! Theorems about the pin-match predicate and the component queries. -/

theorem singletonIs_iff (ps : List String) (p : String) :
    singletonIs ps p = true ↔ ps = [p] := by
  cases ps with
  | nil => simp [singletonIs]
  | cons a tl =>
    cases tl with
    | nil => simp [singletonIs]
    | cons b tl2 => simp [singletonIs]

theorem singletonIs_false {ps : List String} {p : String} (h : ps ≠ [p]) :
    singletonIs ps p = false := by
  rcases hb : singletonIs ps p with _ | _
  · rfl
  · exact absurd ((singletonIs_iff ps p).mp hb) h

theorem matchCount_cons_true {ps : List String} {p : String} (ref : String)
    (rest : List (String × List String)) (h : singletonIs ps p = true) :
    matchCount ((ref, ps) :: rest) p = matchCount rest p + 1 := by
  unfold matchCount
  simp [List.filter, h]

theorem matchCount_cons_false {ps : List String} {p : String} (ref : String)
    (rest : List (String × List String)) (h : singletonIs ps p = false) :
    matchCount ((ref, ps) :: rest) p = matchCount rest p := by
  unfold matchCount
  simp [List.filter, h]

theorem scanPin_of_count_zero (netName npin : String)
    (nodes : List (String × List String)) (acc : Option String)
    (h : matchCount nodes npin = 0) :
    scanPin netName nodes npin acc = .ok acc := by
  induction nodes generalizing acc with
  | nil => rfl
  | cons hd tl ih =>
    obtain ⟨ref, ps⟩ := hd
    rcases hs : singletonIs ps npin with _ | _
    · rw [matchCount_cons_false ref tl hs] at h
      simp only [scanPin, hs, Bool.false_eq_true, if_false]
      exact ih acc h
    · rw [matchCount_cons_true ref tl hs] at h
      omega

theorem scanPin_of_count_pos_some (netName npin r : String)
    (nodes : List (String × List String))
    (h : 1 ≤ matchCount nodes npin) :
    scanPin netName nodes npin (some r) = .error (.duplicatedComp netName) := by
  induction nodes generalizing r with
  | nil => simp [matchCount] at h
  | cons hd tl ih =>
    obtain ⟨ref, ps⟩ := hd
    rcases hs : singletonIs ps npin with _ | _
    · rw [matchCount_cons_false ref tl hs] at h
      simp only [scanPin, hs, Bool.false_eq_true, if_false]
      exact ih r h
    · simp [scanPin, hs]

theorem scanPin_of_count_ge_two (netName npin : String)
    (nodes : List (String × List String))
    (h : 2 ≤ matchCount nodes npin) :
    scanPin netName nodes npin none = .error (.duplicatedComp netName) := by
  induction nodes with
  | nil => simp [matchCount] at h
  | cons hd tl ih =>
    obtain ⟨ref, ps⟩ := hd
    rcases hs : singletonIs ps npin with _ | _
    · rw [matchCount_cons_false ref tl hs] at h
      simp only [scanPin, hs, Bool.false_eq_true, if_false]
      exact ih h
    · rw [matchCount_cons_true ref tl hs] at h
      simp only [scanPin, hs, if_true]
      exact scanPin_of_count_pos_some netName npin ref tl (by omega)

/-- C9: in both the unique-component-by-pin query and the two mask scans, a
node participates only when its pin list is exactly the one-element list
holding the queried pin; a node connected through that pin together with
any additional pin is skipped by the match count, by the scan, and by the
mask accumulations. -/
theorem pin_match_requires_singleton (netName ref npin : String) (ps : List String)
    (rest : List (String × List String)) (acc : Option String) (db : DB)
    (rest2 : List (String × List String)) (s c tc : Nat) :
    (ps ≠ [npin] →
      scanPin netName ((ref, ps) :: rest) npin acc = scanPin netName rest npin acc)
    ∧ (ps ≠ [npin] → matchCount ((ref, ps) :: rest) npin = matchCount rest npin)
    ∧ (ps = [npin] →
      scanPin netName ((ref, ps) :: rest) npin none = scanPin netName rest npin (some ref))
    ∧ (ps ≠ ["3"] →
      accumMasks db ((ref, ps) :: rest2) s c = accumMasks db rest2 s c)
    ∧ (ps ≠ ["2"] →
      accumTC db ((ref, ps) :: rest2) tc = accumTC db rest2 tc) := by
  refine ⟨?_, ?_, ?_, ?_, ?_⟩
  · intro h
    simp [scanPin, singletonIs_false h]
  · intro h
    exact matchCount_cons_false ref rest (singletonIs_false h)
  · intro h
    subst h
    simp [scanPin, singletonIs_iff]
  · intro h
    simp [accumMasks, singletonIs_false h]
  · intro h
    simp [accumTC, singletonIs_false h]

/-- Witness for pin_match_requires_singleton: a node wired through pin 1 and
pin 2 together is ignored by the strobe query and the mask scan, while the
one-pin node participates. -/
theorem pin_match_requires_singleton_witness :
    scanPin "N" [("U1", ["1", "2"])] "1" none = scanPin "N" [] "1" none
    ∧ matchCount [("U1", ["1", "2"])] "1" = matchCount [] "1"
    ∧ scanPin "N" [("U1", ["1"])] "1" none = scanPin "N" [] "1" (some "U1")
    ∧ accumMasks emptyDB [("U1", ["3", "4"])] 0 0 = accumMasks emptyDB [] 0 0
    ∧ accumTC emptyDB [("U1", ["2", "4"])] 0 = accumTC emptyDB [] 0 := by
  refine ⟨?_, ?_, ?_, ?_, ?_⟩
  · exact (pin_match_requires_singleton "N" "U1" "1" ["1", "2"] [] none emptyDB [] 0 0 0).1
      (by decide)
  · exact (pin_match_requires_singleton "N" "U1" "1" ["1", "2"] [] none emptyDB [] 0 0 0).2.1
      (by decide)
  · exact (pin_match_requires_singleton "N" "U1" "1" ["1"] [] none emptyDB [] 0 0 0).2.2.1
      (by decide)
  · exact (pin_match_requires_singleton "N" "U1" "1" ["3", "4"] [] none emptyDB [] 0 0 0).2.2.2.1
      (by decide)
  · exact (pin_match_requires_singleton "N" "U1" "1" ["2", "4"] [] none emptyDB [] 0 0 0).2.2.2.2
      (by decide)

/-! Theorems about the registries. -/

/-- C7: registering a component whose name already exists fails with the
DuplicateDefinition error, the same for a net, and registration succeeds
exactly when the name is fresh (appending the new binding). -/
theorem db_add_duplicate_definition (cdb : CompDB) (c : CompInst) (ndb : NetDB) (n : Net) :
    (CompInst.db_add cdb c = .error .duplicateDefinition ↔ (alookup cdb c.name).isSome = true)
    ∧ ((∃ db2, CompInst.db_add cdb c = .ok db2) ↔ alookup cdb c.name = none)
    ∧ (alookup cdb c.name = none → CompInst.db_add cdb c = .ok (cdb ++ [(c.name, c)]))
    ∧ (Net.db_add ndb n = .error .duplicateDefinition ↔ (alookup ndb n.name).isSome = true)
    ∧ ((∃ db2, Net.db_add ndb n = .ok db2) ↔ alookup ndb n.name = none)
    ∧ (alookup ndb n.name = none → Net.db_add ndb n = .ok (ndb ++ [(n.name, n)])) := by
  unfold CompInst.db_add Net.db_add
  rcases h1 : alookup cdb c.name with _ | v <;> rcases h2 : alookup ndb n.name with _ | w <;>
    simp [h1, h2]

/-- Witness for db_add_duplicate_definition at concrete registries. -/
theorem db_add_duplicate_definition_witness :
    CompInst.db_add [("U1", compU1)] compU1 = .error .duplicateDefinition
    ∧ CompInst.db_add [] compU1 = .ok [("U1", compU1)]
    ∧ Net.db_add [("N1", netW)] netW = .error .duplicateDefinition
    ∧ Net.db_add [] netW = .ok [("N1", netW)] := by
  refine ⟨?_, ?_, ?_, ?_⟩
  · exact (db_add_duplicate_definition [("U1", compU1)] compU1 [] netW).1.mpr (by rfl)
  · exact (db_add_duplicate_definition [] compU1 [] netW).2.2.1 (by rfl)
  · exact (db_add_duplicate_definition [] compU1 [("N1", netW)] netW).2.2.2.1.mpr (by rfl)
  · exact (db_add_duplicate_definition [] compU1 [] netW).2.2.2.2.2 (by rfl)

/-! Theorems about net construction. -/

theorem alookup_nodesAdd (m : List (String × List String)) (r p x : String) :
    alookup (nodesAdd m r p) x =
      if x = r then some ((alookup m r).getD [] ++ [p]) else alookup m x := by
  induction m with
  | nil =>
    by_cases hx : x = r
    · subst hx
      simp [nodesAdd, alookup]
    · simp [nodesAdd, alookup, hx, Ne.symm hx]
  | cons hd tl ih =>
    obtain ⟨k, ps⟩ := hd
    by_cases hk : k = r
    · subst hk
      by_cases hx : x = k
      · subst hx
        simp [nodesAdd, alookup]
      · simp [nodesAdd, alookup, hx, Ne.symm hx]
    · by_cases hx : x = r
      · subst hx
        have hkx : k ≠ x := fun he => hk he
        simp [nodesAdd, hk, alookup, hkx, ih]
      · by_cases hkx : k = x
        · subst hkx
          simp [nodesAdd, hk, alookup, hx]
        · simp [nodesAdd, hk, alookup, hkx, hx, ih]

theorem pinsOf_nil (x : String) : pinsOf [] x = [] := rfl

theorem pinsOf_cons_self (p x : String) (tl : List (String × String)) :
    pinsOf ((x, p) :: tl) x = p :: pinsOf tl x := by
  simp [pinsOf, List.filter]

theorem pinsOf_cons_ne (r p x : String) (tl : List (String × String)) (h : r ≠ x) :
    pinsOf ((r, p) :: tl) x = pinsOf tl x := by
  unfold pinsOf
  rw [List.filter_cons]
  simp [h]

theorem mem_pinsOf {items : List (String × String)} {C p : String}
    (h : (C, p) ∈ items) : p ∈ pinsOf items C := by
  unfold pinsOf
  refine List.mem_map.mpr ⟨(C, p), ?_, rfl⟩
  exact List.mem_filter.mpr ⟨h, by simp⟩

theorem alookup_foldl_nodesAdd (items : List (String × String))
    (acc : List (String × List String)) (x : String) :
    alookup (items.foldl (fun a it => nodesAdd a it.1 it.2) acc) x =
      (match alookup acc x with
       | some qs => some (qs ++ pinsOf items x)
       | none => if pinsOf items x = [] then none else some (pinsOf items x)) := by
  induction items generalizing acc with
  | nil =>
    cases h : alookup acc x <;> simp [pinsOf, h]
  | cons hd tl ih =>
    obtain ⟨r, p⟩ := hd
    rw [List.foldl_cons]
    rw [ih (nodesAdd acc r p)]
    by_cases hx : x = r
    · subst hx
      rw [alookup_nodesAdd]
      simp only [if_pos rfl]
      rw [pinsOf_cons_self]
      cases h : alookup acc x with
      | none => simp
      | some qs => simp
    · rw [alookup_nodesAdd]
      rw [if_neg hx]
      rw [pinsOf_cons_ne r p x tl (fun he => hx he.symm)]

theorem netFold_nodes {name : String} {items : List (String × String)}
    {nodes0 nodes2 : List (String × List String)} {cdb cdb2 : CompDB}
    (h : netFold name items nodes0 cdb = .ok (nodes2, cdb2)) :
    nodes2 = items.foldl (fun a it => nodesAdd a it.1 it.2) nodes0 := by
  induction items generalizing nodes0 cdb with
  | nil =>
    simp only [netFold] at h
    injection h with h2
    injection h2 with h3 h4
    simp [h3.symm]
  | cons hd tl ih =>
    obtain ⟨ref, pin⟩ := hd
    simp only [netFold] at h
    rcases hsp : CompInst.set_pin_net cdb ref pin name with e | cdbm <;> rw [hsp] at h
    · exact Except.noConfusion h
    · rw [List.foldl_cons]
      exact ih h

theorem db_add_ok_of_none {ndb : NetDB} {n : Net} (h : alookup ndb n.name = none) :
    Net.db_add ndb n = .ok (ndb ++ [(n.name, n)]) := by
  unfold Net.db_add
  rw [h]

theorem db_add_error_of_some {ndb : NetDB} {n w : Net} (h : alookup ndb n.name = some w) :
    Net.db_add ndb n = .error .duplicateDefinition := by
  unfold Net.db_add
  rw [h]

theorem netInit_parts {cdb : CompDB} {ndb : NetDB} {name : String}
    {items : List (String × String)} {cdb2 : CompDB} {ndb2 : NetDB}
    (h : Net.init cdb ndb name items = .ok (cdb2, ndb2)) :
    ∃ nodes, netFold name items [] cdb = .ok (nodes, cdb2)
      ∧ alookup ndb name = none
      ∧ ndb2 = ndb ++ [(name, ⟨name, nodes⟩)] := by
  unfold Net.init at h
  rcases hf : netFold name items [] cdb with e | pr
  · rw [hf] at h
    exact Except.noConfusion h
  · obtain ⟨nodes, cdbm⟩ := pr
    simp only [hf] at h
    rcases hl : alookup ndb name with _ | w
    · have hdb : Net.db_add ndb (Net.mk name nodes) = .ok (ndb ++ [(name, Net.mk name nodes)]) :=
        db_add_ok_of_none hl
      simp only [hdb] at h
      injection h with h2
      injection h2 with h3 h4
      refine ⟨nodes, ?_, rfl, h4.symm⟩
      rw [← h3]
    · have hdb : Net.db_add ndb (Net.mk name nodes) = .error .duplicateDefinition :=
        db_add_error_of_some hl
      simp only [hdb] at h
      exact Except.noConfusion h

/-- C8: constructing a Net from an ordered list of (component-reference, pin)
pairs maps each component reference to the ordered list of exactly its
pins as they occur in the input: a repeated reference appends (no
deduplication, no overwrite), a fresh reference starts a singleton entry. -/
theorem net_init_nodes_aggregation (cdb : CompDB) (ndb : NetDB) (name : String)
    (items : List (String × String)) (cdb2 : CompDB) (ndb2 : NetDB)
    (h : Net.init cdb ndb name items = .ok (cdb2, ndb2)) :
    ∃ net : Net, alookup ndb2 name = some net ∧
      ∀ ref, alookup net.nodes ref =
        (if pinsOf items ref = [] then none else some (pinsOf items ref)) := by
  obtain ⟨nodes, hf, hnone, hndb⟩ := netInit_parts h
  refine ⟨⟨name, nodes⟩, ?_, ?_⟩
  · rw [hndb, alookup_append_none _ hnone]
    simp [alookup]
  · intro ref
    have hn := netFold_nodes hf
    show alookup nodes ref = _
    rw [hn, alookup_foldl_nodesAdd]
    simp [alookup]

/-- Witness for net_init_nodes_aggregation: adding pins 1 then 2 of the same
component U1 to one net yields the node entry U1 with pin list [1, 2]. -/
theorem net_init_nodes_aggregation_witness :
    ∃ net : Net, alookup [("N1", Net.mk "N1" [("U1", ["1", "2"])])] "N1" = some net ∧
      ∀ ref, alookup net.nodes ref =
        (if pinsOf [("U1", "1"), ("U1", "2")] ref = []
         then none else some (pinsOf [("U1", "1"), ("U1", "2")] ref)) :=
  net_init_nodes_aggregation [("U1", compU1)] [] "N1" [("U1", "1"), ("U1", "2")]
    [("U1", CompInst.mk "U1" [("1", "N1"), ("2", "N1")] "" "" "" "")]
    [("N1", Net.mk "N1" [("U1", ["1", "2"])])] (by rfl)

theorem netFold_pins_preserve {name : String} {items : List (String × String)}
    {nodes0 nodes2 : List (String × List String)} {cdb cdb2 : CompDB} {C p : String}
    (h : netFold name items nodes0 cdb = .ok (nodes2, cdb2))
    (hp : ∃ c0, alookup cdb C = some c0 ∧ alookup c0.pins p = some name) :
    ∃ c2, alookup cdb2 C = some c2 ∧ alookup c2.pins p = some name := by
  induction items generalizing nodes0 cdb with
  | nil =>
    simp only [netFold] at h
    injection h with h2
    injection h2 with h3 h4
    rw [h4] at hp
    exact hp
  | cons hd tl ih =>
    obtain ⟨ref, pin⟩ := hd
    simp only [netFold] at h
    rcases hsp : CompInst.set_pin_net cdb ref pin name with e | cdbm <;> rw [hsp] at h
    · exact Except.noConfusion h
    · apply ih h
      obtain ⟨c0, hc0, hcp⟩ := hp
      unfold CompInst.set_pin_net at hsp
      rcases hl : alookup cdb ref with _ | cr <;> rw [hl] at hsp
      · exact Except.noConfusion hsp
      · have hcdbm : updateA cdb ref { cr with pins := insertA cr.pins pin name } = cdbm := by
          injection hsp
        by_cases hrC : ref = C
        · subst hrC
          rw [hl] at hc0
          injection hc0 with hc0e
          rw [← hc0e] at hcp
          refine ⟨{ cr with pins := insertA cr.pins pin name }, ?_, ?_⟩
          · rw [← hcdbm]
            exact alookup_updateA_self _ hl
          · by_cases hpp : p = pin
            · subst hpp
              exact alookup_insertA_self _ _ _
            · show alookup (insertA cr.pins pin name) p = some name
              rw [alookup_insertA_ne _ _ _ _ hpp]
              exact hcp
        · refine ⟨c0, ?_, hcp⟩
          rw [← hcdbm, alookup_updateA_ne _ _ _ _ (fun he => hrC he.symm)]
          exact hc0

theorem netFold_pins_establish {name : String} {items : List (String × String)}
    {nodes0 nodes2 : List (String × List String)} {cdb cdb2 : CompDB} {C p : String}
    (h : netFold name items nodes0 cdb = .ok (nodes2, cdb2))
    (hm : (C, p) ∈ items) :
    ∃ c2, alookup cdb2 C = some c2 ∧ alookup c2.pins p = some name := by
  induction items generalizing nodes0 cdb with
  | nil => cases hm
  | cons hd tl ih =>
    obtain ⟨ref, pin⟩ := hd
    simp only [netFold] at h
    rcases hsp : CompInst.set_pin_net cdb ref pin name with e | cdbm <;> rw [hsp] at h
    · exact Except.noConfusion h
    · rcases List.mem_cons.mp hm with heq | htl
      · injection heq with hC hp2
        subst hC
        subst hp2
        apply netFold_pins_preserve h
        unfold CompInst.set_pin_net at hsp
        rcases hl : alookup cdb C with _ | cr <;> rw [hl] at hsp
        · exact Except.noConfusion hsp
        · have hcdbm : updateA cdb C { cr with pins := insertA cr.pins p name } = cdbm := by
            injection hsp
          refine ⟨{ cr with pins := insertA cr.pins p name }, ?_, ?_⟩
          · rw [← hcdbm]
            exact alookup_updateA_self _ hl
          · exact alookup_insertA_self _ _ _
      · exact ih h htl

/-- C10: when two successfully constructed nets both contain the node (C, p),
the later construction silently overwrites the pin map entry — afterwards
C.pins[p] names the second net while the first net still lists (C, p), so
the two sides of the cross-reference disagree. -/
theorem set_pin_net_overwrites (cdb : CompDB) (ndb : NetDB) (n1 n2 C p : String)
    (items1 items2 : List (String × String)) (cdb1 cdb2 : CompDB) (ndb1 ndb2 : NetDB)
    (h1 : Net.init cdb ndb n1 items1 = .ok (cdb1, ndb1))
    (h2 : Net.init cdb1 ndb1 n2 items2 = .ok (cdb2, ndb2))
    (hm1 : (C, p) ∈ items1) (hm2 : (C, p) ∈ items2) :
    n1 ≠ n2
    ∧ (∃ c2, alookup cdb2 C = some c2 ∧ alookup c2.pins p = some n2)
    ∧ (∃ net1 : Net, alookup ndb2 n1 = some net1
        ∧ ∃ ps, alookup net1.nodes C = some ps ∧ p ∈ ps) := by
  obtain ⟨nodesA, hfA, hnoneA, hndbA⟩ := netInit_parts h1
  obtain ⟨nodesB, hfB, hnoneB, hndbB⟩ := netInit_parts h2
  have hlook1 : alookup ndb1 n1 = some ⟨n1, nodesA⟩ := by
    rw [hndbA, alookup_append_none _ hnoneA]
    simp [alookup]
  have hne : n1 ≠ n2 := by
    intro he
    rw [he] at hlook1
    rw [hlook1] at hnoneB
    exact Option.noConfusion hnoneB
  refine ⟨hne, netFold_pins_establish hfB hm2, ⟨n1, nodesA⟩, ?_, ?_⟩
  · rw [hndbB]
    exact alookup_append_left _ hlook1
  · have hnA := netFold_nodes hfA
    have hchar : alookup nodesA C =
        (if pinsOf items1 C = [] then none else some (pinsOf items1 C)) := by
      rw [hnA, alookup_foldl_nodesAdd]
      simp [alookup]
    have hpin : p ∈ pinsOf items1 C := mem_pinsOf hm1
    have hnonempty : pinsOf items1 C ≠ [] := by
      intro he
      rw [he] at hpin
      cases hpin
    refine ⟨pinsOf items1 C, ?_, hpin⟩
    show alookup nodesA C = _
    rw [hchar, if_neg hnonempty]

/-! Theorems about the decoder rows. -/

theorem procRow_eq_of_chain {db : DB} {i : Nat} {vnet : Net} {vcmp : CompInst}
    {p3 : String} {pnet : Net} {seta clra : Nat}
    (h1 : Net.get_by_name db.nets (vlinkName i) = .ok vnet)
    (h2 : Netlist.comp_by_pin db vnet "1" = .ok vcmp)
    (h3 : alookup vcmp.pins "3" = some p3)
    (h4 : alookup db.items p3 = some pnet)
    (h5 : accumMasks db pnet.nodes 0 0 = .ok (seta, clra)) :
    procRow db i =
      (if seta &&& clra ≠ 0 then .ok (.conflict vnet.name seta clra)
       else
         match accumTC db vnet.nodes 0 with
         | .error e => .error e
         | .ok tc => .ok (.decoded (renderBits seta clra) tc)) := by
  unfold procRow
  simp only [h1, h2, h3, h4, h5]

theorem procRow_conflict_inv {db : DB} {i : Nat} {n : String} {s c : Nat}
    (h : procRow db i = .ok (.conflict n s c)) : s &&& c ≠ 0 := by
  unfold procRow at h
  split at h <;> try exact Except.noConfusion h
  split at h <;> try exact Except.noConfusion h
  split at h <;> try exact Except.noConfusion h
  split at h <;> try exact Except.noConfusion h
  split at h <;> try exact Except.noConfusion h
  split at h
  · rename_i hg
    injection h with h2
    injection h2 with ha hb hc
    subst hb
    subst hc
    exact hg
  · split at h <;> try exact Except.noConfusion h
    simp at h

/-- C2: a decode row whose accumulated set and clear masks share a bit is
reported as a conflict: the loop appends only the conflict log line,
leaves vlist, vdict and vlitc untouched (so the row gets no assignment
and no lookup line), and continues with the remaining rows; a row whose
masks do not overlap is decoded and recorded normally. -/
theorem proc_1621_conflict_row_isolation (db : DB) (i : Nat) (rest : List Nat)
    (st : LoopState) :
    (∀ vnet vcmp p3 pnet s c,
      Net.get_by_name db.nets (vlinkName i) = .ok vnet →
      Netlist.comp_by_pin db vnet "1" = .ok vcmp →
      alookup vcmp.pins "3" = some p3 →
      alookup db.items p3 = some pnet →
      accumMasks db pnet.nodes 0 0 = .ok (s, c) →
      s &&& c ≠ 0 →
      procRow db i = .ok (.conflict vnet.name s c))
    ∧ (∀ vnet vcmp p3 pnet s c tc,
      Net.get_by_name db.nets (vlinkName i) = .ok vnet →
      Netlist.comp_by_pin db vnet "1" = .ok vcmp →
      alookup vcmp.pins "3" = some p3 →
      alookup db.items p3 = some pnet →
      accumMasks db pnet.nodes 0 0 = .ok (s, c) →
      s &&& c = 0 →
      accumTC db vnet.nodes 0 = .ok tc →
      procRow db i = .ok (.decoded (renderBits s c) tc))
    ∧ (∀ n s c, procRow db i = .ok (.conflict n s c) →
      s &&& c ≠ 0 ∧
      procRowsFrom db (i :: rest) st =
        procRowsFrom db rest { st with log := st.log ++ [conflictMsg n s c] })
    ∧ (∀ bits tc, procRow db i = .ok (.decoded bits tc) →
      procRowsFrom db (i :: rest) st =
        procRowsFrom db rest
          { st with
            vlist := st.vlist ++ [bits]
            vdict := insertA st.vdict bits i
            vlitc := insertA st.vlitc bits tc }) := by
  refine ⟨?_, ?_, ?_, ?_⟩
  · intro vnet vcmp p3 pnet s c h1 h2 h3 h4 h5 h6
    rw [procRow_eq_of_chain h1 h2 h3 h4 h5, if_pos h6]
  · intro vnet vcmp p3 pnet s c tc h1 h2 h3 h4 h5 h6 h7
    rw [procRow_eq_of_chain h1 h2 h3 h4 h5, if_neg (fun hh => hh h6)]
    simp only [h7]
  · intro n s c h
    exact ⟨procRow_conflict_inv h, by simp only [procRowsFrom, h]⟩
  · intro bits tc h
    simp only [procRowsFrom, h]

/-- Witness for proc_1621_conflict_row_isolation: on conflictDB row 0 has bit
3 both set (tag ~LC3) and cleared (tag LC3), is logged and not recorded;
on okDB row 0 decodes to the all-x string and is recorded. -/
theorem proc_1621_conflict_row_isolation_witness :
    procRow conflictDB 0 = .ok (.conflict "VLINK_00" 8 8)
    ∧ ((8 : Nat) &&& 8 ≠ 0
      ∧ procRowsFrom conflictDB [0] init0 =
          procRowsFrom conflictDB []
            { init0 with log := init0.log ++ [conflictMsg "VLINK_00" 8 8] })
    ∧ procRow okDB 0 = .ok (.decoded xBits 0)
    ∧ procRowsFrom okDB [0] init0 =
        procRowsFrom okDB []
          { init0 with
            vlist := init0.vlist ++ [xBits]
            vdict := insertA init0.vdict xBits 0
            vlitc := insertA init0.vlitc xBits 0 } := by
  have hc : procRow conflictDB 0 = .ok (.conflict "VLINK_00" 8 8) := by rfl
  have hd : procRow okDB 0 = .ok (.decoded xBits 0) := by rfl
  exact ⟨hc, (proc_1621_conflict_row_isolation conflictDB 0 [] init0).2.2.1 _ _ _ hc, hd,
    (proc_1621_conflict_row_isolation okDB 0 [] init0).2.2.2 _ _ hd⟩

/-- C3: the per-row structural queries are fatal: a missing VLINK net, a
strobe-pin query matching zero components, or one matching two or more
components each abort the row with one of the EX_DATAERR exits, any such
error stops the whole loop at once (the remaining rows are not visited),
proc_1621 ends with that error, and the exit status is 65, nonzero. -/
theorem proc_1621_structural_errors_fatal (db : DB) (i : Nat) (rest : List Nat)
    (st : LoopState) :
    (alookup db.nets (vlinkName i) = none →
      procRow db i = .error (.netNotFound (vlinkName i)))
    ∧ (∀ vnet, alookup db.nets (vlinkName i) = some vnet →
      matchCount vnet.nodes "1" = 0 →
      procRow db i = .error (.noComp vnet.name))
    ∧ (∀ vnet, alookup db.nets (vlinkName i) = some vnet →
      2 ≤ matchCount vnet.nodes "1" →
      procRow db i = .error (.duplicatedComp vnet.name))
    ∧ (∀ e, procRow db i = .error e →
      procRowsFrom db (i :: rest) st = (st, some e) ∧ e.exitCode ≠ 0)
    ∧ (∀ st2 e2, procRowsFrom db (List.range 88) init0 = (st2, some e2) →
      Netlist.proc_1621 db = (st2.log, some e2))
    ∧ (∀ nm, (DecodeErr.netNotFound nm).exitCode = 65
      ∧ (DecodeErr.noComp nm).exitCode = 65
      ∧ (DecodeErr.duplicatedComp nm).exitCode = 65) := by
  refine ⟨?_, ?_, ?_, ?_, ?_, ?_⟩
  · intro h
    unfold procRow Net.get_by_name
    simp only [h]
  · intro vnet hv hc
    have hs := scanPin_of_count_zero vnet.name "1" vnet.nodes none hc
    unfold procRow Net.get_by_name Netlist.comp_by_pin
    simp only [hv, hs]
  · intro vnet hv hc
    have hs := scanPin_of_count_ge_two vnet.name "1" vnet.nodes hc
    unfold procRow Net.get_by_name Netlist.comp_by_pin
    simp only [hv, hs]
  · intro e h
    refine ⟨by simp only [procRowsFrom, h], ?_⟩
    cases e <;> simp [DecodeErr.exitCode]
  · intro st2 e2 h
    unfold Netlist.proc_1621
    simp only [h]
  · intro nm
    exact ⟨rfl, rfl, rfl⟩

/-- Witness for proc_1621_structural_errors_fatal at three tiny registries:
a missing net, a net with zero strobe matches, and one with two. -/
theorem proc_1621_structural_errors_fatal_witness :
    procRow emptyDB 0 = .error (.netNotFound "VLINK_00")
    ∧ procRow noMatchDB 0 = .error (.noComp "VLINK_00")
    ∧ procRow dupDB 0 = .error (.duplicatedComp "VLINK_00")
    ∧ (procRowsFrom emptyDB [0] init0 = (init0, some (.netNotFound "VLINK_00"))
      ∧ (DecodeErr.netNotFound "VLINK_00").exitCode ≠ 0)
    ∧ Netlist.proc_1621 emptyDB = (init0.log, some (.netNotFound "VLINK_00")) := by
  refine ⟨?_, ?_, ?_, ?_, ?_⟩
  · exact (proc_1621_structural_errors_fatal emptyDB 0 [] init0).1 (by rfl)
  · exact (proc_1621_structural_errors_fatal noMatchDB 0 [] init0).2.1
      (Net.mk "VLINK_00" [("A", ["2"])]) (by rfl) (by rfl)
  · exact (proc_1621_structural_errors_fatal dupDB 0 [] init0).2.2.1
      (Net.mk "VLINK_00" [("A", ["1"]), ("B", ["1"])]) (by rfl) (by decide)
  · exact (proc_1621_structural_errors_fatal emptyDB 0 [] init0).2.2.2.1 _
      ((proc_1621_structural_errors_fatal emptyDB 0 [] init0).1 (by rfl))
  · exact (proc_1621_structural_errors_fatal emptyDB 0 [] init0).2.2.2.2.1 init0
      (.netNotFound "VLINK_00") (by rfl)

/-! Theorems about atom classification and symbol interning. -/

theorem Sym_lookup {s : String} {t t2 : SymTable} {id : Nat}
    (h : Sym s t = (id, t2)) : alookup t2.entries s = some id := by
  unfold Sym at h
  rcases hl : alookup t.entries s with _ | id0
  · simp only [hl] at h
    injection h with h1 h2
    rw [← h2]
    show alookup (t.entries ++ [(s, t.next)]) s = some id
    rw [alookup_append_none _ hl]
    simp [alookup, h1]
  · simp only [hl] at h
    injection h with h1 h2
    rw [← h2, ← h1]
    exact hl

theorem Sym_idem {s : String} {t t2 : SymTable} {id : Nat}
    (h : Sym s t = (id, t2)) : Sym s t2 = (id, t2) := by
  have hl := Sym_lookup h
  unfold Sym
  rw [hl]

theorem atom_sym_inv {tok : String} {t t2 : SymTable} {id : Nat}
    (h : Lexer.atom tok t = (.symA id, t2)) :
    tok.data.head? ≠ some dqCh ∧ pyInt? tok = none ∧ pyFloatSyntax tok = false ∧
      Sym tok t = (id, t2) := by
  unfold Lexer.atom at h
  split at h
  · injection h with h1 h2
    exact PAtom.noConfusion h1
  · rename_i hq
    split at h
    · injection h with h1 h2
      exact PAtom.noConfusion h1
    · rename_i hi
      split at h
      · injection h with h1 h2
        exact PAtom.noConfusion h1
      · rename_i hf
        injection h with h1 h2
        injection h1 with h1b
        refine ⟨hq, hi, ?_, ?_⟩
        · cases hfl : pyFloatSyntax tok
          · rfl
          · exact absurd hfl hf
        · have he : Sym tok t = ((Sym tok t).1, (Sym tok t).2) := rfl
          rw [he, h1b, h2]

theorem pyInt?_head_ne_dq {tok : String} {n : Int} (h : pyInt? tok = some n) :
    tok.data.head? ≠ some dqCh := by
  unfold pyInt? at h
  cases hd : tok.data with
  | nil => rw [hd] at h; exact Option.noConfusion h
  | cons c cs =>
    simp only [hd] at h
    intro hh
    injection hh with hc
    subst hc
    have h34 : dqCh.toNat = 34 := rfl
    rw [h34] at h
    simp only [show (34 = 45) = False by simp, show (34 = 43) = False by simp,
      if_false] at h
    have hdig : digitsVal? (dqCh :: cs) = none := by
      unfold digitsVal?
      have : isDigitCh dqCh = false := rfl
      simp [this]
    rw [hdig] at h
    exact Option.noConfusion h

/-- C4 (amended to the main reader): for Lexer.atom of 08.py, a token that
starts with a double quote yields the content with the surrounding quotes
stripped and escapes kept verbatim; otherwise the token is an integer
when int() accepts it, else a float when float() accepts it, else an
interned Symbol; and classifying the same spelling again, against the
table the first classification returned, yields the identical symbol. -/
theorem atom_classification_interned :
    (∀ (cs : List Char) (t : SymTable),
      Lexer.atom (String.mk (dqCh :: (cs ++ [dqCh]))) t = (.strA (String.mk cs), t))
    ∧ (∀ (tok : String) (t : SymTable) (n : Int),
      pyInt? tok = some n → Lexer.atom tok t = (.intA n, t))
    ∧ (∀ (tok : String) (t : SymTable), tok.data.head? ≠ some dqCh →
      pyInt? tok = none → pyFloatSyntax tok = true →
      Lexer.atom tok t = (.floatA tok, t))
    ∧ (∀ (tok : String) (t : SymTable), tok.data.head? ≠ some dqCh →
      pyInt? tok = none → pyFloatSyntax tok = false →
      Lexer.atom tok t = (.symA (Sym tok t).1, (Sym tok t).2))
    ∧ (∀ (tok : String) (t t2 : SymTable) (id : Nat),
      Lexer.atom tok t = (.symA id, t2) → Lexer.atom tok t2 = (.symA id, t2)) := by
  refine ⟨?_, ?_, ?_, ?_, ?_⟩
  · intro cs t
    unfold Lexer.atom
    simp [List.dropLast_concat]
  · intro tok t n h
    unfold Lexer.atom
    rw [if_neg (pyInt?_head_ne_dq h)]
    simp only [h]
  · intro tok t h1 h2 h3
    unfold Lexer.atom
    rw [if_neg h1]
    simp only [h2, h3, if_true]
  · intro tok t h1 h2 h3
    unfold Lexer.atom
    rw [if_neg h1]
    simp only [h2, h3, Bool.false_eq_true, if_false]
  · intro tok t t2 id h
    obtain ⟨hq, hi, hf, hs⟩ := atom_sym_inv h
    have hs2 := Sym_idem hs
    unfold Lexer.atom
    rw [if_neg hq]
    simp only [hi, hf, Bool.false_eq_true, if_false, hs2]

/-- Witness for atom_classification_interned on the spec examples: a quoted
abc, the integer 123, the float 1.5, and the interned symbol FOO. -/
theorem atom_classification_interned_witness :
    Lexer.atom (String.mk (dqCh :: (['a', 'b', 'c'] ++ [dqCh]))) initSymTable
        = (.strA (String.mk ['a', 'b', 'c']), initSymTable)
    ∧ Lexer.atom "123" initSymTable = (.intA 123, initSymTable)
    ∧ Lexer.atom "1.5" initSymTable = (.floatA "1.5", initSymTable)
    ∧ Lexer.atom "FOO" (SymTable.mk [("quote", 0), ("quasiquote", 1), ("FOO", 2)] 3)
        = (.symA 2, SymTable.mk [("quote", 0), ("quasiquote", 1), ("FOO", 2)] 3) := by
  refine ⟨?_, ?_, ?_, ?_⟩
  · exact atom_classification_interned.1 ['a', 'b', 'c'] initSymTable
  · exact atom_classification_interned.2.1 "123" initSymTable 123 (by rfl)
  · exact atom_classification_interned.2.2.1 "1.5" initSymTable (by decide) (by rfl) (by rfl)
  · exact atom_classification_interned.2.2.2.2 "FOO" initSymTable _ 2 (by rfl)

/-- Counterexample for the interning part of the claim as stated over both
readers: the 03.py atom allocates a fresh Symbol object per call, so two
separately parsed occurrences of FOO are equal in spelling but are not
the identical object. -/
theorem atom03_not_interned :
    (atom03 "FOO" 0).1 ≠ (atom03 "FOO" (atom03 "FOO" 0).2).1
    ∧ (atom03 "FOO" 0).1 = .symA "FOO" 0
    ∧ (atom03 "FOO" (atom03 "FOO" 0).2).1 = .symA "FOO" 1 :=
  ⟨by decide, rfl, rfl⟩

/-! Theorems about the readers and tokenizers. -/

/-- The 08.py reader wraps the quote marker correctly: one expression is read
from the same stream the marker came from (its body is re-entered on the
current continuation) and the result is the two-element list. -/
theorem readAheadF_quote_wraps (fuel : Nat) (tok : String) (ts : List String)
    (t : SymTable) (q : Nat) (h : quoteSym? tok = some q) :
    readAheadF (fuel + 1) tok ts t =
      (match readStreamF fuel ts t with
       | .error e => .error e
       | .ok (e, ts2, t2) => .ok (.listE [.atomE (.symA q), e], ts2, t2)) := by
  have hp : tok = sqS ∨ tok = bqS := by
    unfold quoteSym? at h
    by_cases h1 : tok = sqS
    · exact Or.inl h1
    · rw [if_neg h1] at h
      by_cases h2 : tok = bqS
      · exact Or.inr h2
      · rw [if_neg h2] at h
        exact Option.noConfusion h
  have hlp : tok ≠ "(" := by
    rcases hp with rfl | rfl <;> decide
  have hrp : tok ≠ ")" := by
    rcases hp with rfl | rfl <;> decide
  unfold readAheadF
  rw [if_neg hlp, if_neg hrp, h]
  cases ts with
  | nil => rfl
  | cons tok2 rest => rfl

/-- C5 (the 03.py slip): handing the quote or quasiquote marker to the 03.py
reader reaches its read(inport) call, two names defined nowhere in that
module, so the read crashes with NameError instead of reading the next
expression from the same reader. -/
theorem read_quote_nameError_03 :
    readAhead03F 2 sqS ["FOO"] 0 = .error .nameError
    ∧ readAhead03F 2 bqS ["FOO"] 0 = .error .nameError :=
  ⟨rfl, rfl⟩

/-- The 08.py tokenizer keeps returning the eof marker on exhausted input,
only bumping the line counter. -/
theorem next_tokenF_eof_idempotent (fuel n : Nat) :
    Lexer.next_tokenF (fuel + 1) (Lexer.mk [] "" n) =
      some (.eofTok (Lexer.mk [] "" (n + 1))) := rfl

/-- C6 (the 03.py FIXME guard): at exhausted input the 03.py tokenizer raises
RuntimeError as soon as the line counter exceeds 100, instead of keeping
on returning the eof marker the way the 08.py tokenizer does. -/
theorem next_token03_raises_after_100 :
    Lexer.next_token03F 1 (Lexer.mk [] "" 100) = some .runtimeError
    ∧ Lexer.next_token03F 1 (Lexer.mk [] "" 5) = some (.eofTok (Lexer.mk [] "" 6))
    ∧ Lexer.next_tokenF 1 (Lexer.mk [] "" 100) = some (.eofTok (Lexer.mk [] "" 101)) :=
  ⟨rfl, rfl, rfl⟩

/-- Witness for set_pin_net_overwrites: nets N1 then N2 each wiring pin 1 of
U1; afterwards U1.pins[1] is N2 while net N1 still lists (U1, 1). -/
theorem set_pin_net_overwrites_witness :
    "N1" ≠ "N2"
    ∧ (∃ c2, alookup [("U1", CompInst.mk "U1" [("1", "N2")] "" "" "" "")] "U1" = some c2
        ∧ alookup c2.pins "1" = some "N2")
    ∧ (∃ net1 : Net, alookup [("N1", Net.mk "N1" [("U1", ["1"])]),
          ("N2", Net.mk "N2" [("U1", ["1"])])] "N1" = some net1
        ∧ ∃ ps, alookup net1.nodes "U1" = some ps ∧ "1" ∈ ps) :=
  set_pin_net_overwrites [("U1", compU1)] [] "N1" "N2" "U1" "1"
    [("U1", "1")] [("U1", "1")]
    [("U1", CompInst.mk "U1" [("1", "N1")] "" "" "" "")]
    [("U1", CompInst.mk "U1" [("1", "N2")] "" "" "" "")]
    [("N1", Net.mk "N1" [("U1", ["1"])])]
    [("N1", Net.mk "N1" [("U1", ["1"])]), ("N2", Net.mk "N2" [("U1", ["1"])])]
    (by rfl) (by rfl) (by decide) (by decide)

/-! Theorems about the final emission of proc_1621. -/

theorem demo_loop : procRowsFrom demoDB (List.range 88) init0 = (demoSt, none) := rfl

/-- C1 (amended): once all 88 primary rows have been processed, proc_1621
prints the conflict log, the header, then one assignment line per
successfully decoded row followed by one lookup line per row (a repeated
bit string is emitted once per row that produced it), both blocks in
ascending code-point order of the bit strings: the emitted order is a
sorted permutation of vlist, and the lookup lines render the secondary
value in uppercase hexadecimal. -/
theorem proc_1621_sorted_emission (db : DB) (st : LoopState)
    (h : procRowsFrom db (List.range 88) init0 = (st, none)) :
    (Netlist.proc_1621 db).1 =
      st.log ++ headerLine :: ((sortStrings st.vlist).map (assignLine st.vdict)
          ++ (sortStrings st.vlist).map (lookupLine st.vlitc))
    ∧ List.Sorted pyLeRel (sortStrings st.vlist)
    ∧ (sortStrings st.vlist).Perm st.vlist
    ∧ ∀ n : Nat, (fmt02X n).data.all isUpperHexCh = true := by
  refine ⟨?_, sortStrings_sorted _, sortStrings_perm _, fmt02X_upper⟩
  unfold Netlist.proc_1621
  simp only [h]

/-- Witness for proc_1621_sorted_emission on demoDB, whose primary loop
completes with 88 copies of the all-x bit string. -/
theorem proc_1621_sorted_emission_witness :
    (Netlist.proc_1621 demoDB).1 =
      demoSt.log ++ headerLine :: ((sortStrings demoSt.vlist).map (assignLine demoSt.vdict)
          ++ (sortStrings demoSt.vlist).map (lookupLine demoSt.vlitc))
    ∧ List.Sorted pyLeRel (sortStrings demoSt.vlist)
    ∧ (sortStrings demoSt.vlist).Perm demoSt.vlist
    ∧ ∀ n : Nat, (fmt02X n).data.all isUpperHexCh = true :=
  proc_1621_sorted_emission demoDB demoSt demo_loop

/-- Counterexample to the claim as stated: on demoDB every one of the 88 rows
decodes to the same bit string, and the emitted output is not the
one-line-per-distinct-bitstring table the claim describes — vlist is
sorted and emitted with its duplicates retained. -/
theorem proc_1621_distinct_emission_false :
    (Netlist.proc_1621 demoDB).1 ≠ claimEmitDistinct demoSt
    ∧ procRowsFrom demoDB (List.range 88) init0 = (demoSt, none)
    ∧ (sortStrings demoSt.vlist).dedup = [xBits]
    ∧ demoSt.vlist.length = 88 := by
  refine ⟨?_, demo_loop, by decide, by decide⟩
  unfold Netlist.proc_1621
  rw [demo_loop]
  decide

end NetlistModel
